import Mathlib

/-!
Shallow embedding of `pgit` (src/main.go), a concurrent batch command runner,
together with proofs of its specified properties.

The Go source is a single file; we embed its data model (`Command`,
`CommandResult`), the repository-discovery loop of `main`, the
`runCommand` timeout state machine, the per-task output labeling of
`worker`, and the result collection / exit-code logic of `main`.
External effects (the filesystem listing, the behavior of a spawned
process) are abstracted as explicit parameters, so every definition is
executable.
-/

namespace Pgit

/-- Structure `Command` from main.go:36-40: a representation of a program to run. -/
structure Command where
  WorkingDir : String
  Command : String
  Args : List String
deriving DecidableEq, Repr

/-- Structure `CommandResult` from main.go:42-46.  Go's `error` interface is
modelled by `Option String` (the error's message, `none` for nil). -/
structure CommandResult where
  Success : Bool
  Error : Option String
  Command : Command
deriving DecidableEq, Repr

/-- Method `Command.String` from main.go:48-50:
`fmt.Sprintf("'%s %s' in '%s'", c.Command, strings.Join(c.Args, " "), c.WorkingDir)`. -/
def commandString (c : Command) : String :=
  "'" ++ c.Command ++ " " ++ String.intercalate " " c.Args ++ "' in '" ++ c.WorkingDir ++ "'"

/-- Default of the `-n` flag / the `maxconcurrency` variable (main.go:25,31). -/
def defaultMaxconcurrency : Nat := 4

/-! ## Repository discovery (main.go:65-87) -/

/-- One entry returned by `ioutil.ReadDir` (an `os.FileInfo`): its name and
whether it is a directory. -/
structure DirEntry where
  Name : String
  IsDir : Bool
deriving DecidableEq, Repr

/-- Function `strings.HasSuffix` (main.go:70), on the strings' character lists. -/
def goHasSuffix (s suf : String) : Bool :=
  suf.data.isSuffixOf s.data

/-- Function `strings.Split(s, ",")` (main.go:67) on a character list: split at every
comma; splitting the empty list yields one empty field, as in Go. -/
def splitComma : List Char → List (List Char)
  | [] => [[]]
  | c :: cs =>
    match splitComma cs with
    | [] => if c = ',' then [[], [c]] else [[c]]
    | r :: rs => if c = ',' then [] :: r :: rs else (c :: r) :: rs

/-- Function `strings.Split(s, ",")` (main.go:67). -/
def goSplitComma (s : String) : List String :=
  (splitComma s.data).map String.mk

/-- Function `strings.EqualFold` (main.go:81), modelled as equality after simple
case folding of every character. -/
def eqFold (a b : String) : Bool :=
  a.data.map Char.toLower == b.data.map Char.toLower

/-- The discovery loop of `main` (main.go:65-87).  `dirs` is the listing of
the current directory; `gitMarkerMissing name` models
`os.IsNotExist(err)` for `os.Stat(filepath.Join(name, ".git"))`, i.e. it
is `true` exactly when the `.git` marker of directory `name` does not
exist.  The Go loop, per entry:
  * main.go:70: skip unless it is a directory; skip names with suffix ".git";
  * main.go:74: skip when the `.git` marker is missing;
  * main.go:80-84: skip when the name equals (case-folded) an entry of
    `strings.Split(excludeDirectories, ",")` (labeled continue);
  * main.go:86: otherwise append the name to `repos`. -/
def discoverRepos (dirs : List DirEntry) (gitMarkerMissing : String → Bool)
    (excludeDirectories : String) : List String :=
  dirs.filterMap fun dir =>
    if !dir.IsDir || goHasSuffix dir.Name ".git" then
      none
    else if gitMarkerMissing dir.Name then
      none
    else if (goSplitComma excludeDirectories).any
        (fun excludedDir => eqFold dir.Name excludedDir) then
      none
    else
      some dir.Name

/-! ## runCommand (main.go:144-176) -/

/-- The externally determined behavior of the spawned process: whether
`process.Start()` fails (and with what error message), whether the
process is still running when the 30-minute timer (main.go:21,157) fires,
and the exit code it exits with on its own otherwise. -/
structure ProcBehavior where
  startErr : Option String
  runsPastTimeout : Bool
  exitCode : Nat
deriving DecidableEq, Repr

/-- Function `runCommand` (main.go:144-176).
  * main.go:152-154: a `process.Start()` error is returned as the result's
    error unchanged (Go zero value gives `Success = false`).
  * main.go:156-164: a timer goroutine; when the process outlives the
    timeout the timer fires first, sends the kill signal, and sets
    `timedOut`; `process.Wait()` (main.go:166) then returns a non-nil
    error for the killed process, rewritten at main.go:168 to
    `"process timed out: <command>"`.
  * main.go:169-170: otherwise a non-nil `Wait` error is an
    `*exec.ExitError` (non-zero exit), rewritten to the constant
    `"exited with non-zero exit code"` — the numeric code is dropped.
  * main.go:175: exit code 0 yields a successful result. -/
def runCommand (b : ProcBehavior) (command : Command) : CommandResult :=
  match b.startErr with
  | some err => ⟨false, some err, command⟩
  | none =>
    if b.runsPastTimeout then
      ⟨false, some ("process timed out: " ++ commandString command), command⟩
    else if b.exitCode ≠ 0 then
      ⟨false, some "exited with non-zero exit code", command⟩
    else
      ⟨true, none, command⟩

/-- Whether the timer goroutine (main.go:158-164) sends
`process.Process.Signal(os.Kill)`: it does exactly when the process
started and was still running when the timer fired. -/
def processKilled (b : ProcBehavior) : Bool :=
  b.startErr.isNone && b.runsPastTimeout

/-! ## Result collection and exit status (main.go:104-121) -/

/-- The collection loop of `main` (main.go:104-110): of the consumed
results, keep those with `!result.Success`, in order. -/
def failedCms (results : List CommandResult) : List CommandResult :=
  results.filter fun result => !result.Success

/-- The exit status of `main` (main.go:112-120): `os.Exit(len(failedCms))`
when at least one command failed, `os.Exit(0)` otherwise. -/
def mainExitCode (results : List CommandResult) : Nat :=
  let failed := failedCms results
  if failed.length > 0 then failed.length else 0

/-- The whole `main` pipeline, for a given outcome of
`ioutil.ReadDir("./")` (main.go:66; the error is discarded with `_`, and
on failure `ioutil.ReadDir` returns a nil slice, modelled as `none`),
process behaviors, and trailing CLI arguments.  Produces the dispatched
commands (main.go:90-101: one per discovered repo, executable "git",
args `flag.Args()`) and the final exit status over their results. -/
def mainRun (readDirResult : Option (List DirEntry)) (gitMarkerMissing : String → Bool)
    (excludeDirectories : String) (additionalArgs : List String)
    (behavior : Command → ProcBehavior) : List Command × Nat :=
  let dirs := readDirResult.getD []
  let repos := discoverRepos dirs gitMarkerMissing excludeDirectories
  let cmds := repos.map fun repo =>
    { WorkingDir := repo, Command := "git", Args := additionalArgs : Command }
  let results := cmds.map fun cmd => runCommand (behavior cmd) cmd
  (cmds, mainExitCode results)

/-! ## Worker pool semantics (main.go:57-63, 90-101, 123-142)

`main` spawns `maxconcurrency` worker goroutines sharing the unbuffered
`input` channel; a goroutine publishes one `Command` per repo in order
and closes the channel.  Each worker repeatedly takes the next queued
command (possible only while one of the `N` workers is idle, i.e. while
fewer than `N` commands are in flight), runs it, and sends exactly one
`CommandResult` on `output` (main.go:140).  We model this as a small-step
transition system; `run` is the per-command execution
(`runCommand` under a fixed behavior of the environment). -/

structure SchedState where
  queue : List Command
  inflight : List Command
  results : List CommandResult
deriving DecidableEq, Repr

/-- One scheduler step: a worker takes the next command off the channel
(only when fewer than `N` commands are in flight, since there are only
`N` workers), or a worker finishes an in-flight command and sends its
result on the `output` channel. -/
inductive Step (N : Nat) (run : Command → CommandResult) : SchedState → SchedState → Prop
  | take (c : Command) (q inflight : List Command) (results : List CommandResult) :
      inflight.length < N →
      Step N run ⟨c :: q, inflight, results⟩ ⟨q, c :: inflight, results⟩
  | finish (q infl₁ : List Command) (c : Command) (infl₂ : List Command)
      (results : List CommandResult) :
      Step N run ⟨q, infl₁ ++ c :: infl₂, results⟩
        ⟨q, infl₁ ++ infl₂, run c :: results⟩

/-- Reflexive-transitive closure of `Step`. -/
inductive Reachable (N : Nat) (run : Command → CommandResult) : SchedState → SchedState → Prop
  | refl (s : SchedState) : Reachable N run s s
  | tail {s t u : SchedState} : Reachable N run s t → Step N run t u → Reachable N run s u

/-- The state after main.go:90-101 published all commands: everything
queued, nothing in flight, no results yet. -/
def initState (cmds : List Command) : SchedState :=
  ⟨cmds, [], []⟩

/-- The batch is over: the channel is closed and drained and every worker
is idle. -/
def Terminal (s : SchedState) : Prop :=
  s.queue = [] ∧ s.inflight = []

/-- Per-command execution under a fixed environment behavior. -/
def runC (behavior : Command → ProcBehavior) (c : Command) : CommandResult :=
  runCommand (behavior c) c

/-- The commands a state still owes results for, plus those already
answered, as a multiset. -/
def tasksOf (s : SchedState) : Multiset Command :=
  ↑(s.results.map fun r => r.Command) + ↑s.inflight + ↑s.queue

/-- Every result in the state is the one `run` produces for its own
command. -/
def ResultsOk (run : Command → CommandResult) (s : SchedState) : Prop :=
  ∀ r ∈ s.results, r = run r.Command

/-! ## Per-task output (main.go:123-142) -/

/-- Function `filepath.Base` (main.go:125-126) for slash-separated paths: the empty
path gives ".", a path of only separators gives "/", otherwise trailing
separators are dropped and the last element is returned. -/
def goFilepathBase (path : String) : String :=
  if path = "" then "."
  else
    let trimmed := (path.data.reverse.dropWhile fun c => c = '/').reverse
    if trimmed.isEmpty then "/"
    else String.mk (trimmed.reverse.takeWhile fun c => c ≠ '/').reverse

/-- The label of a task's loggers (main.go:125-126):
`fmt.Sprintf("[%s] ", filepath.Base(cmd.WorkingDir))`. -/
def taskLabel (cmd : Command) : String :=
  "[" ++ goFilepathBase cmd.WorkingDir ++ "] "

/-- One line as written by `log.New(w, label, 0)`: the logger stamps its
label in front of every line it outputs. -/
def loggerLine (label s : String) : String :=
  label ++ s

/-- Modelled from the spec: the package `github.com/saquib.mian/pgit/logwriter`
belongs to this repository but is not under src/, so `NewLogWriter` and
`Flush` (main.go:130-134) are modelled from §4.4 of the spec: a LogWriter
accumulates everything the process writes to the task's logical stream
and, on `Flush`, emits the accumulated content through its logger, which
labels every line.  We represent the accumulated stream content by its
list of complete lines. -/
def logWriterFlush (label : String) (bufferedLines : List String) : List String :=
  bufferedLines.map (loggerLine label)

/-- The lines `worker` (main.go:124-141) puts on the real stdout for one
task: the `--> <command>` banner (main.go:128) followed by the flushed
stdout of the process, every line stamped with the task's label. -/
def workerStdoutLines (cmd : Command) (procStdout : List String) : List String :=
  loggerLine (taskLabel cmd) ("--> " ++ commandString cmd)
    :: logWriterFlush (taskLabel cmd) procStdout

/-- The lines `worker` puts on the real stderr for one task: the flushed
stderr of the process and, when the result is failed, the
`error: <message>` line (main.go:136-138), every line stamped with the
task's label. -/
def workerStderrLines (b : ProcBehavior) (cmd : Command) (procStderr : List String) :
    List String :=
  logWriterFlush (taskLabel cmd) procStderr
    ++ (if (runCommand b cmd).Success then []
        else [loggerLine (taskLabel cmd) ("error: " ++ ((runCommand b cmd).Error.getD ""))])

/-! ## Concrete run used by the scheduler witnesses -/

def cw1 : Command := ⟨"alpha", "git", ["status"]⟩

def cw2 : Command := ⟨"beta", "git", ["status"]⟩

/-- Environment in which `cw1` fails to spawn and `cw2` succeeds. -/
def bw : Command → ProcBehavior := fun c =>
  if c.WorkingDir = "alpha" then ⟨some "exec: \x22git\x22: executable file not found", false, 0⟩
  else ⟨none, false, 0⟩

def wFinal : SchedState := ⟨[], [], [runC bw cw2, runC bw cw1]⟩

end Pgit

namespace Pgit

/-! ## Theorems -/

/-- Function `runCommand` always stores the originating command in the result
(main.go:153, 172, 175). -/
theorem runCommand_Command (b : ProcBehavior) (c : Command) :
    (runCommand b c).Command = c := by
  unfold runCommand
  cases b.startErr
  · dsimp only
    split
    · rfl
    · split <;> rfl
  · rfl

theorem step_tasksOf {N : Nat} {run : Command → CommandResult}
    (hrun : ∀ c, (run c).Command = c) {s t : SchedState} (h : Step N run s t) :
    tasksOf t = tasksOf s := by
  cases h with
  | take c q inflight results hlt =>
    simp only [tasksOf, ← Multiset.cons_coe, ← Multiset.singleton_add]
    abel
  | finish q infl₁ c infl₂ results =>
    simp only [tasksOf, List.map_cons, hrun c, ← Multiset.cons_coe, ← Multiset.coe_add,
      ← Multiset.singleton_add]
    abel

theorem reachable_tasksOf {N : Nat} {run : Command → CommandResult}
    (hrun : ∀ c, (run c).Command = c) {s t : SchedState} (h : Reachable N run s t) :
    tasksOf t = tasksOf s := by
  induction h with
  | refl => rfl
  | tail _ hstep ih => rw [step_tasksOf hrun hstep, ih]

theorem step_resultsOk {N : Nat} {run : Command → CommandResult}
    (hrun : ∀ c, (run c).Command = c) {s t : SchedState} (h : Step N run s t)
    (hs : ResultsOk run s) : ResultsOk run t := by
  cases h with
  | take c q inflight results hlt => exact hs
  | finish q infl₁ c infl₂ results =>
    intro r hr
    rcases List.mem_cons.mp hr with rfl | hr
    · rw [hrun c]
    · exact hs r hr

theorem reachable_resultsOk {N : Nat} {run : Command → CommandResult}
    (hrun : ∀ c, (run c).Command = c) {s t : SchedState} (h : Reachable N run s t)
    (hs : ResultsOk run s) : ResultsOk run t := by
  induction h with
  | refl => exact hs
  | tail _ hstep ih => exact step_resultsOk hrun hstep ih

theorem step_inflight_le {N : Nat} {run : Command → CommandResult} {s t : SchedState}
    (h : Step N run s t) (hs : s.inflight.length ≤ N) : t.inflight.length ≤ N := by
  cases h with
  | take c q inflight results hlt => simpa using hlt
  | finish q infl₁ c infl₂ results =>
    simp only [List.length_append, List.length_cons] at hs ⊢
    omega

/-- In any terminal state of a complete run, the collected results are
exactly one `run c` per dispatched command `c`. -/
theorem terminal_results_eq {N : Nat} {behavior : Command → ProcBehavior}
    {cmds : List Command} {s : SchedState}
    (h : Reachable N (runC behavior) (initState cmds) s) (ht : Terminal s) :
    (↑s.results : Multiset CommandResult) = (↑cmds : Multiset Command).map (runC behavior) := by
  have hrun : ∀ c, (runC behavior c).Command = c := fun c => runCommand_Command _ _
  have htasks := reachable_tasksOf hrun h
  have hok : ResultsOk (runC behavior) s :=
    reachable_resultsOk hrun h (by intro r hr; exact absurd hr (List.not_mem_nil r))
  obtain ⟨hq, hi⟩ := ht
  have hmap : (↑(s.results.map fun r => r.Command) : Multiset Command) = ↑cmds := by
    simpa [tasksOf, initState, hq, hi] using htasks
  have hlist : s.results.map (fun r => runC behavior r.Command) = s.results := by
    conv_rhs => rw [← List.map_id s.results]
    exact List.map_congr_left fun r hr => (hok r hr).symm
  calc (↑s.results : Multiset CommandResult)
      = ↑(s.results.map fun r => runC behavior r.Command) := by rw [hlist]
    _ = Multiset.map (runC behavior) ↑(s.results.map fun r => r.Command) := by
        simp [List.map_map, Function.comp_def]
    _ = Multiset.map (runC behavior) ↑cmds := by rw [hmap]

/-- C1: For every batch run, the process exit status equals the number of
tasks whose CommandResult is marked failed; when zero tasks fail the
process exits with status 0. -/
theorem mainExitCode_eq_failed_count (results : List CommandResult) :
    mainExitCode results = (failedCms results).length := by
  simp only [mainExitCode]
  split <;> omega

/-- C3: a task whose process runs past the timeout is killed and its
result is marked failed with the error identifying the command and
stating it timed out; it is never marked successful. -/
theorem runCommand_timeout (b : ProcBehavior) (cmd : Command)
    (hs : b.startErr = none) (ht : b.runsPastTimeout = true) :
    runCommand b cmd =
      ⟨false, some ("process timed out: " ++ commandString cmd), cmd⟩ ∧
    processKilled b = true := by
  constructor
  · unfold runCommand
    rw [hs]
    simp [ht]
  · unfold processKilled
    rw [hs, ht]
    rfl

theorem runCommand_timeout_witness :
    ((⟨none, true, 0⟩ : ProcBehavior).startErr = none ∧
       (⟨none, true, 0⟩ : ProcBehavior).runsPastTimeout = true) ∧
    (runCommand ⟨none, true, 0⟩ ⟨"repoA", "git", ["pull"]⟩ =
        ⟨false, some ("process timed out: " ++ commandString ⟨"repoA", "git", ["pull"]⟩),
          ⟨"repoA", "git", ["pull"]⟩⟩ ∧
      processKilled ⟨none, true, 0⟩ = true) :=
  ⟨⟨rfl, rfl⟩, runCommand_timeout ⟨none, true, 0⟩ ⟨"repoA", "git", ["pull"]⟩ rfl rfl⟩

/-- C4: for a task that did not time out, exit code 0 yields a successful
result, and a non-zero exit yields a failed result with the generic
error "exited with non-zero exit code" — the same error for every
non-zero code, so the numeric code is not propagated. -/
theorem runCommand_exit_code (b : ProcBehavior) (cmd : Command)
    (hs : b.startErr = none) (ht : b.runsPastTimeout = false) :
    (b.exitCode = 0 → runCommand b cmd = ⟨true, none, cmd⟩) ∧
    (b.exitCode ≠ 0 →
      runCommand b cmd = ⟨false, some "exited with non-zero exit code", cmd⟩) := by
  constructor
  · intro h0
    unfold runCommand
    rw [hs]
    simp [ht, h0]
  · intro hn
    unfold runCommand
    rw [hs]
    simp [ht, hn]

theorem runCommand_exit_code_witness :
    ((⟨none, false, 7⟩ : ProcBehavior).startErr = none ∧
       (⟨none, false, 7⟩ : ProcBehavior).runsPastTimeout = false) ∧
    runCommand ⟨none, false, 7⟩ ⟨"repoB", "git", ["fetch"]⟩ =
      ⟨false, some "exited with non-zero exit code", ⟨"repoB", "git", ["fetch"]⟩⟩ :=
  ⟨⟨rfl, rfl⟩,
    (runCommand_exit_code ⟨none, false, 7⟩ ⟨"repoB", "git", ["fetch"]⟩ rfl rfl).2
      (by decide)⟩

/-- C6: a name appears in the discovered task set only if its `.git`
marker exists, and only if it matches no exclude-list entry under
case-insensitive comparison — so a directory matching an exclude entry
is always excluded. -/
theorem discoverRepos_marker_and_exclude (dirs : List DirEntry)
    (gitMarkerMissing : String → Bool) (excludeDirectories : String) (n : String)
    (hn : n ∈ discoverRepos dirs gitMarkerMissing excludeDirectories) :
    gitMarkerMissing n = false ∧
    ∀ excludedDir ∈ goSplitComma excludeDirectories, eqFold n excludedDir = false := by
  unfold discoverRepos at hn
  simp only [List.mem_filterMap] at hn
  obtain ⟨dir, -, hdir⟩ := hn
  by_cases h1 : (!dir.IsDir || goHasSuffix dir.Name ".git") = true
  · rw [if_pos h1] at hdir
    exact Option.noConfusion hdir
  · rw [if_neg h1] at hdir
    by_cases h2 : gitMarkerMissing dir.Name = true
    · rw [if_pos h2] at hdir
      exact Option.noConfusion hdir
    · rw [if_neg h2] at hdir
      by_cases h3 :
          ((goSplitComma excludeDirectories).any fun e => eqFold dir.Name e) = true
      · rw [if_pos h3] at hdir
        exact Option.noConfusion hdir
      · rw [if_neg h3] at hdir
        obtain rfl : dir.Name = n := Option.some.inj hdir
        refine ⟨by simpa using h2, ?_⟩
        intro excludedDir hmem
        by_contra hfold
        exact h3 (List.any_eq_true.mpr
          ⟨excludedDir, hmem, by simpa using hfold⟩)

theorem discoverRepos_marker_and_exclude_witness :
    ("foo" ∈ discoverRepos [⟨"foo", true⟩] (fun _ => false) "Bar,Baz") ∧
    ((fun (_ : String) => false) "foo" = false ∧
      ∀ excludedDir ∈ goSplitComma "Bar,Baz",
        eqFold "foo" excludedDir = false) :=
  ⟨by decide,
    discoverRepos_marker_and_exclude [⟨"foo", true⟩] (fun _ => false) "Bar,Baz" "foo"
      (by decide)⟩

/-- C9: a top-level directory whose name ends with ".git" is skipped
unconditionally (main.go:70), even when its own `.git` marker exists. -/
theorem discoverRepos_skips_dot_git_suffix (dirs : List DirEntry)
    (gitMarkerMissing : String → Bool) (excludeDirectories : String) (n : String)
    (hsuffix : goHasSuffix n ".git" = true) :
    n ∉ discoverRepos dirs gitMarkerMissing excludeDirectories := by
  intro hn
  unfold discoverRepos at hn
  simp only [List.mem_filterMap] at hn
  obtain ⟨dir, -, hdir⟩ := hn
  by_cases h1 : (!dir.IsDir || goHasSuffix dir.Name ".git") = true
  · rw [if_pos h1] at hdir
    exact Option.noConfusion hdir
  · rw [if_neg h1] at hdir
    by_cases h2 : gitMarkerMissing dir.Name = true
    · rw [if_pos h2] at hdir
      exact Option.noConfusion hdir
    · rw [if_neg h2] at hdir
      by_cases h3 :
          ((goSplitComma excludeDirectories).any fun e => eqFold dir.Name e) = true
      · rw [if_pos h3] at hdir
        exact Option.noConfusion hdir
      · rw [if_neg h3] at hdir
        obtain rfl : dir.Name = n := Option.some.inj hdir
        simp [hsuffix] at h1

theorem discoverRepos_skips_dot_git_suffix_witness :
    goHasSuffix "sub.git" ".git" = true ∧
    "sub.git" ∉ discoverRepos [⟨"sub.git", true⟩] (fun _ => false) "" :=
  ⟨by decide,
    discoverRepos_skips_dot_git_suffix [⟨"sub.git", true⟩] (fun _ => false) "" "sub.git"
      (by decide)⟩

/-- C10: when `ioutil.ReadDir("./")` fails its error is discarded
(main.go:66): the task set is empty, no command is dispatched, and the
exit status is 0. -/
theorem mainRun_readDir_failure (gitMarkerMissing : String → Bool)
    (excludeDirectories : String) (additionalArgs : List String)
    (behavior : Command → ProcBehavior) :
    mainRun none gitMarkerMissing excludeDirectories additionalArgs behavior = ([], 0) :=
  rfl

/-- C2: in every complete run over `cmds` dispatched commands, the
collector receives exactly `cmds.length` results, and the results are
exactly one per dispatched command — never zero, never more than one
(equality of multisets). -/
theorem collector_one_result_per_command (N : Nat) (behavior : Command → ProcBehavior)
    (cmds : List Command) (s : SchedState)
    (h : Reachable N (runC behavior) (initState cmds) s) (ht : Terminal s) :
    s.results.length = cmds.length ∧
    (↑s.results : Multiset CommandResult) = (↑cmds : Multiset Command).map (runC behavior) := by
  have hm := terminal_results_eq h ht
  refine ⟨?_, hm⟩
  have := congrArg Multiset.card hm
  simpa using this

/-- C8: at no point of any run are more than the configured `N` commands
in flight simultaneously. -/
theorem worker_pool_bounds_concurrency (N : Nat) (run : Command → CommandResult)
    (cmds : List Command) (s : SchedState)
    (h : Reachable N run (initState cmds) s) :
    s.inflight.length ≤ N := by
  induction h with
  | refl => simp [initState]
  | tail _ hstep ih => exact step_inflight_le hstep ih

/-- C5: a command whose process fails to spawn yields a failed result
carrying the spawn error (main.go:152-154), and the failure stays
per-task: a complete run still produces the full set of results, one per
dispatched command. -/
theorem runCommand_spawn_failure_isolated (behavior : Command → ProcBehavior)
    (N : Nat) (cmds : List Command) (c : Command) (e : String) (s : SchedState)
    (hc : (behavior c).startErr = some e)
    (h : Reachable N (runC behavior) (initState cmds) s) (ht : Terminal s) :
    runC behavior c = ⟨false, some e, c⟩ ∧
    (↑s.results : Multiset CommandResult) = (↑cmds : Multiset Command).map (runC behavior) := by
  refine ⟨?_, terminal_results_eq h ht⟩
  unfold runC runCommand
  rw [hc]

/-- A complete two-worker run over `[cw1, cw2]`: both commands are taken,
then both finish. -/
theorem wDeriv : Reachable 2 (runC bw) (initState [cw1, cw2]) wFinal :=
  Reachable.tail
    (Reachable.tail
      (Reachable.tail
        (Reachable.tail (Reachable.refl (initState [cw1, cw2]))
          (Step.take cw1 [cw2] [] [] (by decide)))
        (Step.take cw2 [] [cw1] [] (by decide)))
      (Step.finish [] [cw2] cw1 [] []))
    (Step.finish [] [] cw2 [] [runC bw cw1])

theorem collector_one_result_per_command_witness :
    wFinal.results.length = [cw1, cw2].length ∧
    (↑wFinal.results : Multiset CommandResult) =
      (↑[cw1, cw2] : Multiset Command).map (runC bw) :=
  collector_one_result_per_command 2 bw [cw1, cw2] wFinal wDeriv ⟨rfl, rfl⟩

theorem worker_pool_bounds_concurrency_witness :
    wFinal.inflight.length ≤ 2 :=
  worker_pool_bounds_concurrency 2 (runC bw) [cw1, cw2] wFinal wDeriv

theorem runCommand_spawn_failure_isolated_witness :
    ((bw cw1).startErr = some "exec: \x22git\x22: executable file not found") ∧
    (runC bw cw1 = ⟨false, some "exec: \x22git\x22: executable file not found", cw1⟩ ∧
      (↑wFinal.results : Multiset CommandResult) =
        (↑[cw1, cw2] : Multiset Command).map (runC bw)) :=
  ⟨rfl,
    runCommand_spawn_failure_isolated bw 2 [cw1, cw2] cw1
      "exec: \x22git\x22: executable file not found" wFinal rfl wDeriv ⟨rfl, rfl⟩⟩

/-- C7: every line a task puts on the shared stdout/stderr starts with
`"[<base>] "` where `<base>` is the base name of the task's working
directory (not its full path), and when the task failed the stderr lines
include the labeled `error: <message>` line. -/
theorem worker_output_lines_labeled (b : ProcBehavior) (cmd : Command)
    (procStdout procStderr : List String) (line : String)
    (hline : line ∈ workerStdoutLines cmd procStdout ++ workerStderrLines b cmd procStderr) :
    (∃ rest, line = taskLabel cmd ++ rest) ∧
    taskLabel cmd = "[" ++ goFilepathBase cmd.WorkingDir ++ "] " ∧
    ((runCommand b cmd).Success = false →
      taskLabel cmd ++ ("error: " ++ ((runCommand b cmd).Error.getD "")) ∈
        workerStderrLines b cmd procStderr) := by
  refine ⟨?_, rfl, ?_⟩
  · simp only [workerStdoutLines, workerStderrLines, logWriterFlush, loggerLine,
      List.mem_append, List.mem_cons, List.mem_map] at hline
    rcases hline with (h | ⟨a, -, rfl⟩) | (⟨a, -, rfl⟩ | h)
    · exact ⟨_, h⟩
    · exact ⟨a, rfl⟩
    · exact ⟨a, rfl⟩
    · by_cases hs : (runCommand b cmd).Success = true
      · rw [if_pos hs] at h
        exact absurd h (List.not_mem_nil _)
      · rw [if_neg hs] at h
        rcases List.mem_singleton.mp h with rfl
        exact ⟨_, rfl⟩
  · intro hfail
    unfold workerStderrLines
    refine List.mem_append_right _ ?_
    rw [hfail]
    exact List.mem_singleton.mpr rfl

theorem worker_output_lines_labeled_witness :
    ("[repoC] err1" ∈
        workerStdoutLines ⟨"repoC", "git", []⟩ ["out1"] ++
          workerStderrLines ⟨none, false, 2⟩ ⟨"repoC", "git", []⟩ ["err1"]) ∧
    ((∃ rest, "[repoC] err1" = taskLabel ⟨"repoC", "git", []⟩ ++ rest) ∧
      taskLabel ⟨"repoC", "git", []⟩ = "[" ++ goFilepathBase "repoC" ++ "] " ∧
      ((runCommand ⟨none, false, 2⟩ ⟨"repoC", "git", []⟩).Success = false →
        taskLabel ⟨"repoC", "git", []⟩ ++
            ("error: " ++
              ((runCommand ⟨none, false, 2⟩ ⟨"repoC", "git", []⟩).Error.getD "")) ∈
          workerStderrLines ⟨none, false, 2⟩ ⟨"repoC", "git", []⟩ ["err1"])) :=
  ⟨by decide,
    worker_output_lines_labeled ⟨none, false, 2⟩ ⟨"repoC", "git", []⟩ ["out1"] ["err1"]
      "[repoC] err1" (by decide)⟩

end Pgit
